import Mathlib

/-!
Shallow embedding of the core of the ds2-capstone-telegram-ai-alerts
repository: the hybrid market-data resolver (src/app/services/fmp_hybrid.py,
src/app/services/data_providers.py, src/app/services/yahoo_direct.py), the
dedup log (src/app/utils/logs.py) and the 52-week-high alert evaluator
(src/app/analytics/alerts.py).

Modelling conventions:
- Python floats are modelled as `ℚ`; wall-clock time (`time.time()`) is a `ℚ`
  threaded explicitly through the state.
- Python dicts used as caches become functions `String → Option _`; JSON
  records become structures.  Dict fields that no claim mentions (marketCap,
  peRatio, dayHigh, dayLow) are omitted from the structures.
- `random.uniform` draws are parameters (`MockRand`, `jitter`) constrained by
  hypotheses to the documented ranges.
- Network responses are oracles: a function from the attempt index to the
  HTTP outcome observed by that attempt.  Each executed attempt counts as one
  outbound HTTP request; the counts returned by the resolver functions are
  the number of such requests issued.
-/

namespace DS2

/-- Python's `str.upper()` on symbol strings.  (`String.toUpper` of the Lean
core library is implemented with an opaque loop, so an explicit map over the
characters is used instead; on the ASCII tickers involved the two agree.) -/
def upper (s : String) : String := ⟨s.data.map Char.toUpper⟩

/-- Canonical quote record produced by the provider adapters
(`get_hybrid_stock_quote` / `get_yahoo_quote` / `create_mock_quote`).
`source` is `none` when the underlying Python dict has no `source` key. -/
structure Quote where
  symbol : String
  companyName : Option String
  price : ℚ
  change : ℚ
  changePercent : ℚ
  volume : ℕ
  week52High : ℚ
  week52Low : ℚ
  source : Option String
  deriving DecidableEq

namespace Logs

/-- `ensure` of src/app/utils/logs.py: create the backing JSON file with an
empty array when it does not exist.  The file is `none` when absent and
`some l` when it stores the JSON array `l`. -/
def ensure (file : Option (List String)) : Option (List String) :=
  some (file.getD [])

/-- `read` of src/app/utils/logs.py: `ensure` then load the array. -/
def read (file : Option (List String)) : List String :=
  file.getD []

/-- `append` of src/app/utils/logs.py: load the array; when the item is not
present, append it, rewrite the file and return `True`; otherwise return
`False` without writing.  Returns the file contents after the call together
with the Boolean result.  (The `ensure` inside `read` may create the missing
file with `[]` even on the `False` path.) -/
def append (file : Option (List String)) (item : String) :
    Option (List String) × Bool :=
  let logs := read file
  if item ∈ logs then (ensure file, false)
  else (some (logs ++ [item]), true)

end Logs

/-- A dedup-log entry written by `check_and_notify_52_week_highs`
(src/app/analytics/alerts.py).  The Python log stores strings; the two key
shapes `f"{symbol}_{year_high}_{current_price:.2f}"` and
`f"{symbol}_near_high_{int(abs(pct))}"` never collide, so they are modelled
as constructors of one inductive. -/
inductive LogKey where
  | high (symbol : String) (yearHigh : ℚ) (priceCents : ℤ)
  | nearHigh (symbol : String) (distance : ℤ)
  deriving DecidableEq

/-- The price component of the 52-week-high dedup key:
`f"{current_price:.2f}"` formats to cents.  Only determinism of the rounding
matters for the dedup claims. -/
def cents (q : ℚ) : ℤ := round (q * 100)

/-- The body of the per-stock iteration of `check_and_notify_52_week_highs`
(src/app/analytics/alerts.py lines 161-233): given the loaded log and the
quote for one stock, returns the log after the iteration and how many
notifications were sent.  The evaluator persists the log to the file right
after each append, so the returned list is also the file contents. -/
def check_52_week_high_stock (thresholdPct : ℚ) (log : List LogKey) (q : Quote) :
    List LogKey × ℕ :=
  if q.price ≠ 0 ∧ q.week52High ≠ 0 then
    let pctFromHigh := (q.price - q.week52High) / q.week52High * 100
    let alertKey := LogKey.high q.symbol q.week52High (cents q.price)
    if pctFromHigh ≥ -thresholdPct then
      if alertKey ∈ log then (log, 0) else (log ++ [alertKey], 1)
    else if -15 ≤ pctFromHigh ∧ pctFromHigh ≤ -5 then
      let nearKey := LogKey.nearHigh q.symbol ⌊|pctFromHigh|⌋
      if nearKey ∈ log then (log, 0) else (log ++ [nearKey], 1)
    else (log, 0)
  else (log, 0)

/-- `n` successive runs of the 52-week-high evaluator against the same
observation `q`: each run reloads the log from the file (`get_log`),
processes the stock, and persists the log.  Returns the final file contents
and the total number of notifications sent. -/
def runs_52_week_high (thresholdPct : ℚ) (q : Quote) : ℕ → List LogKey → List LogKey × ℕ
  | 0, log => (log, 0)
  | n + 1, log =>
    let first := check_52_week_high_stock thresholdPct log q
    let rest := runs_52_week_high thresholdPct q n first.1
    (rest.1, first.2 + rest.2)

/-- The random draws consumed by `create_mock_quote`
(src/app/services/data_providers.py lines 33-73).  The seed is derived from
the symbol, so within a run the draws are a deterministic function of the
symbol; the documented ranges are imposed by `MockRand.InRange`. -/
structure MockRand where
  priceJitter : ℚ
  changeJitter : ℚ
  volume : ℕ
  week52HighJitter : ℚ
  week52LowJitter : ℚ
  deriving DecidableEq

/-- The ranges of the `random.uniform` calls in `create_mock_quote`:
`uniform(-0.05, 0.05)`, `uniform(-0.03, 0.03)`, `uniform(1.1, 1.4)`,
`uniform(0.6, 0.9)`. -/
def MockRand.InRange (r : MockRand) : Prop :=
  -(1/20) ≤ r.priceJitter ∧ r.priceJitter ≤ 1/20 ∧
  -(3/100) ≤ r.changeJitter ∧ r.changeJitter ≤ 3/100 ∧
  11/10 ≤ r.week52HighJitter ∧ r.week52HighJitter ≤ 7/5 ∧
  3/5 ≤ r.week52LowJitter ∧ r.week52LowJitter ≤ 9/10

instance (r : MockRand) : Decidable r.InRange := by
  unfold MockRand.InRange
  infer_instance

/-- The `mock_companies` table of `create_mock_quote`, consulted with
`symbol.upper()`; unknown symbols default to `(f"{symbol} Corporation", 100)`. -/
def mockCompanyEntry (symbol : String) : String × ℚ :=
  let key := upper symbol
  if key = "AAPL" then ("Apple Inc.", 270)
  else if key = "MSFT" then ("Microsoft Corporation", 510)
  else if key = "GOOGL" then ("Alphabet Inc.", 275)
  else if key = "TSLA" then ("Tesla, Inc.", 350)
  else if key = "AMZN" then ("Amazon.com, Inc.", 180)
  else if key = "NVDA" then ("NVIDIA Corporation", 480)
  else if key = "META" then ("Meta Platforms, Inc.", 300)
  else (key ++ " Corporation", 100)

/-- `create_mock_quote` of src/app/services/data_providers.py (lines 33-73):
the synthetic fallback record.  Note that the returned dict has NO `source`
key, hence `source := none` here. -/
def create_mock_quote (symbol : String) (r : MockRand) : Quote :=
  let company := mockCompanyEntry symbol
  let price := company.2 * (1 + r.priceJitter)
  let change := price * r.changeJitter
  { symbol := upper symbol,
    companyName := some company.1,
    price := price,
    change := change,
    changePercent := change / (price - change) * 100,
    volume := r.volume,
    week52High := price * r.week52HighJitter,
    week52Low := price * r.week52LowJitter,
    source := none }

/-- `_FMP_FORBIDDEN_THRESHOLD` of src/app/services/fmp_hybrid.py (line 80). -/
def FMP_FORBIDDEN_THRESHOLD : ℕ := 10

/-- `max_retries` of `_make_fmp_request` (line 210). -/
def fmpMaxRetries : ℕ := 3

/-- The provider health state of the FMP transport: the adaptive
`FMP_ENABLED` flag and the `_fmp_consecutive_forbidden` counter
(src/app/services/fmp_hybrid.py lines 77-80).  `FMP_ENABLED` is initialised
to `bool(FMP_API_KEY)`; the `not FMP_API_KEY` guard of `_make_fmp_request`
is folded into `enabled` since the key never changes. -/
structure FmpState where
  enabled : Bool
  consecutiveForbidden : ℕ
  deriving DecidableEq

/-- The parse of a response body: `isErrorMessage` is the
`isinstance(data, dict) and data.get('Error Message')` check of
`_make_fmp_request`; `payload` the parsed JSON otherwise. -/
structure FmpParsed (α : Type) where
  isErrorMessage : Bool
  payload : α
  deriving DecidableEq

/-- The outcome one attempt of `_make_fmp_request` observes: either an HTTP
response with a status code (with `parsed = none` when `response.json()`
raises) or an exception from `requests.get` itself. -/
inductive FmpAttempt (α : Type) where
  | status (code : ℕ) (parsed : Option (FmpParsed α))
  | exn
  deriving DecidableEq

/-- The 403 branch of `_make_fmp_request` (lines 221-228): increment the
consecutive-forbidden counter and disable the provider once the threshold is
reached. -/
def fmpHandle403 (st : FmpState) : FmpState :=
  let c := st.consecutiveForbidden + 1
  { enabled := if FMP_FORBIDDEN_THRESHOLD ≤ c then false else st.enabled,
    consecutiveForbidden := c }

/-- The retry loop of `_make_fmp_request` (lines 213-271):
`for attempt in range(max_retries + 1)`.  `fuel` is the number of loop
iterations left (initially `max_retries + 1`), `attempt` the Python loop
index.  Returns the result, the provider health state afterwards, and the
number of outbound HTTP requests issued. -/
def fmpGo (oracle : ℕ → FmpAttempt α) : ℕ → ℕ → FmpState → Option α × FmpState × ℕ
  | 0, _, st => (none, st, 0)
  | fuel + 1, attempt, st =>
    match oracle attempt with
    | .exn =>
      if attempt < fmpMaxRetries then
        let r := fmpGo oracle fuel (attempt + 1) st
        (r.1, r.2.1, r.2.2 + 1)
      else (none, st, 1)
    | .status code parsed =>
      if code = 403 then (none, fmpHandle403 st, 1)
      else if code = 429 then
        if attempt < fmpMaxRetries then
          let r := fmpGo oracle fuel (attempt + 1) st
          (r.1, r.2.1, r.2.2 + 1)
        else (none, st, 1)
      else if code = 404 then (none, st, 1)
      else if code ≠ 200 then (none, st, 1)
      else
        match parsed with
        | none =>
          if attempt < fmpMaxRetries then
            let r := fmpGo oracle fuel (attempt + 1) st
            (r.1, r.2.1, r.2.2 + 1)
          else (none, st, 1)
        | some p =>
          if p.isErrorMessage then (none, st, 1)
          else (some p.payload, { st with consecutiveForbidden := 0 }, 1)

/-- `_make_fmp_request` of src/app/services/fmp_hybrid.py (lines 204-273):
when the provider is disabled, return `None` without any HTTP request;
otherwise run the retry loop. -/
def make_fmp_request (st : FmpState) (oracle : ℕ → FmpAttempt α) :
    Option α × FmpState × ℕ :=
  if st.enabled then fmpGo oracle (fmpMaxRetries + 1) 0 st else (none, st, 0)

/-- `_HYBRID_QUOTE_TTL` (line 94). -/
def HYBRID_QUOTE_TTL : ℚ := 60

/-- The hybrid-layer state: `_hybrid_quote_cache`, `_hybrid_quote_ts` (keyed
by uppercased symbol) and the FMP provider health state. -/
structure HybridState where
  quoteCache : String → Option Quote
  quoteTs : String → Option ℚ
  fmp : FmpState

/-- A fresh process state: empty caches, counter 0, `enabled` as configured. -/
def emptyHybridState (fmpEnabled : Bool) : HybridState :=
  { quoteCache := fun _ => none, quoteTs := fun _ => none,
    fmp := { enabled := fmpEnabled, consecutiveForbidden := 0 } }

/-- `_get_hybrid_cached_quote` (lines 163-168): `if ts and (now - ts) < TTL`
(note the Python truthiness test `ts`, which also rejects a zero timestamp).
Pure: no side effects on the state. -/
def get_hybrid_cached_quote (st : HybridState) (now : ℚ) (symbol : String) :
    Option Quote :=
  let key := upper symbol
  match st.quoteTs key with
  | some ts => if ts ≠ 0 ∧ now - ts < HYBRID_QUOTE_TTL then st.quoteCache key else none
  | none => none

/-- `_set_hybrid_cached_quote` (lines 170-173): store the record under the
uppercased symbol with the current time as timestamp. -/
def set_hybrid_cached_quote (st : HybridState) (now : ℚ) (symbol : String)
    (data : Quote) : HybridState :=
  let key := upper symbol
  { st with
    quoteCache := fun k => if k = key then some data else st.quoteCache k,
    quoteTs := fun k => if k = key then some now else st.quoteTs k }

/-- An FMP raw quote item (one element of the JSON list returned by the
`/api/v3/quote/` endpoint), with the `float(item.get(..., 0))` defaults
already applied; `symbol`/`name` are `None` when the key is absent. -/
structure FmpRawQuote where
  symbol : Option String
  name : Option String
  price : ℚ
  change : ℚ
  changesPercentage : ℚ
  volume : ℕ
  yearHigh : ℚ
  yearLow : ℚ
  deriving DecidableEq

/-- The standardized record built by `get_hybrid_stock_quote` from
`fmp_data[0]` (lines 306-319), tagged `source='fmp'`.  The `yearHigh` /
`week52High` aliases hold the same value, modelled once. -/
def fmpQuoteToRecord (symbol : String) (companyName : Option String)
    (q : FmpRawQuote) : Quote :=
  { symbol := q.symbol.getD (upper symbol),
    companyName := companyName,
    price := q.price,
    change := q.change,
    changePercent := q.changesPercentage,
    volume := q.volume,
    week52High := q.yearHigh,
    week52Low := q.yearLow,
    source := some "fmp" }

/-- The environment of one `get_hybrid_stock_quote` call: the FMP transport
oracle, the outcome of `get_yahoo_quote` (whose dict has no `source` key),
and the `get_company_name` result (served from the process-wide name cache;
its own potential fetch is not counted here). -/
structure QuoteCallEnv where
  fmpOracle : ℕ → FmpAttempt (List FmpRawQuote)
  yahooResult : Option Quote
  companyName : Option String

/-- The Yahoo fallback tail of `get_hybrid_stock_quote` (lines 328-336): tag
the Yahoo record with `source='yahoo'`, cache it and return it; one upstream
request is attributed to the `get_yahoo_quote` call. -/
def yahooQuoteFallback (symbol : String) (st : HybridState) (now : ℚ)
    (yahooResult : Option Quote) (fmpCalls : ℕ) : Option Quote × HybridState × ℕ :=
  match yahooResult with
  | some y =>
    let tagged := { y with source := some "yahoo" }
    (some tagged, set_hybrid_cached_quote st now symbol tagged, fmpCalls + 1)
  | none => (none, st, fmpCalls + 1)

/-- `get_hybrid_stock_quote` of src/app/services/fmp_hybrid.py (lines
275-336): serve from the hybrid cache when fresh; otherwise try FMP (when
enabled), falling back to Yahoo when FMP yields nothing; cache any freshly
fetched record.  Returns the record (or `none` when every provider failed),
the state afterwards and the number of upstream HTTP requests issued. -/
def get_hybrid_stock_quote (symbol : String) (st : HybridState) (now : ℚ)
    (env : QuoteCallEnv) : Option Quote × HybridState × ℕ :=
  match get_hybrid_cached_quote st now symbol with
  | some cached => (some cached, st, 0)
  | none =>
    if st.fmp.enabled then
      match make_fmp_request st.fmp env.fmpOracle with
      | (some (q :: _), fmp1, calls) =>
        let result := fmpQuoteToRecord symbol env.companyName q
        (some result,
         set_hybrid_cached_quote { st with fmp := fmp1 } now symbol result,
         calls)
      | (_, fmp1, calls) =>
        yahooQuoteFallback symbol { st with fmp := fmp1 } now env.yahooResult calls
    else
      yahooQuoteFallback symbol st now env.yahooResult 0

/-- The outcome of the `get_hybrid_stock_quote` call as observed by
`get_stock_quote`: either the call raised, or it returned `None` or a
record. -/
inductive HybridOutcome where
  | raised
  | returned (q : Option Quote)

/-- `get_stock_quote` of src/app/services/data_providers.py (lines 139-171),
with `HYBRID_AVAILABLE = True` (the repository imports succeed): return the
hybrid quote when it exists with `price > 0`; on any other outcome —
`None`, an invalid price, or an exception — fall back to
`create_mock_quote`.  Total: the caller always receives a record. -/
def get_stock_quote (symbol : String) (hybrid : HybridOutcome) (r : MockRand) :
    Quote :=
  match hybrid with
  | .returned (some q) => if 0 < q.price then q else create_mock_quote symbol r
  | _ => create_mock_quote symbol r

/-- Python-dict insertion semantics for the `results` dict of the batch
paths: overwrite the binding when the key is present, append otherwise. -/
def upsert (results : List (String × Quote)) (key : String) (q : Quote) :
    List (String × Quote) :=
  if results.any (fun p => p.1 = key) then
    results.map (fun p => if p.1 = key then (key, q) else p)
  else results ++ [(key, q)]

/-- The standardized record built by the FMP batch loop of
`get_multiple_hybrid_quotes` (lines 612-625), tagged `source='fmp'`; `sym`
is `item['symbol']` and the company name comes from `item.get('name')`.
Note: no validity check on `price` is performed here. -/
def fmpBatchRecord (item : FmpRawQuote) (sym : String) : Quote :=
  { symbol := sym,
    companyName := item.name,
    price := item.price,
    change := item.change,
    changePercent := item.changesPercentage,
    volume := item.volume,
    week52High := item.yearHigh,
    week52Low := item.yearLow,
    source := some "fmp" }

/-- `remaining[i:i+max_fmp_calls]` chunking of the FMP batch loop.  `fuel`
bounds the recursion (the list length suffices whenever `n ≥ 1`, which the
caller guarantees via `max_fmp_calls = min(5, len(symbols)) ≥ 1`). -/
def chunkGo (n : ℕ) : ℕ → List String → List (List String)
  | 0, _ => []
  | _, [] => []
  | fuel + 1, l => l.take n :: chunkGo n fuel (l.drop n)

/-- Split a list into consecutive chunks of size `n`. -/
def chunkList (n : ℕ) (l : List String) : List (List String) :=
  chunkGo n l.length l

/-- Accumulator of the batch loops of `get_multiple_hybrid_quotes`: the
`results` dict, the mutable hybrid state, and the `fmp_served` list. -/
structure BatchAcc where
  results : List (String × Quote)
  st : HybridState
  fmpServed : List String

/-- Processing of one item of an FMP batch response (lines 600-629): skip
items without a symbol (`if not sym: continue`), otherwise standardize, tag
`source='fmp'`, store in `results`, cache, and record in `fmp_served`.  (The
incidental company-name caching of line 610 touches no claim and is not
modelled.) -/
def processFmpItem (now : ℚ) (acc : BatchAcc) (item : FmpRawQuote) : BatchAcc :=
  match item.symbol with
  | none => acc
  | some sym =>
    if sym = "" then acc
    else
      let standardized := fmpBatchRecord item sym
      { results := upsert acc.results sym standardized,
        st := set_hybrid_cached_quote acc.st now sym standardized,
        fmpServed := acc.fmpServed ++ [sym] }

/-- One iteration of the FMP chunk loop (lines 574-629): issue the batch
request through `_make_fmp_request` and fold the returned items; a `None`,
non-list or empty response just moves to the next chunk. -/
def processFmpChunk (now : ℚ) (oracle : ℕ → FmpAttempt (List FmpRawQuote))
    (acc : BatchAcc) : BatchAcc :=
  let r := make_fmp_request acc.st.fmp oracle
  let acc1 := { acc with st := { acc.st with fmp := r.2.1 } }
  match r.1 with
  | some items => items.foldl (processFmpItem now) acc1
  | none => acc1

/-- `get_multiple_hybrid_quotes` of src/app/services/fmp_hybrid.py (lines
535-652): serve fresh cache entries, batch the rest through FMP in chunks of
`max_fmp_calls`, and send only the symbols FMP did not serve to the Yahoo
batch endpoint, tagging those `source='yahoo'`.  `oracles i` is the
transport oracle of the `i`-th FMP chunk request; `yahooBatch` the result of
`get_yahoo_batch_quotes` on the leftover symbols. -/
def get_multiple_hybrid_quotes (symbols : List String) (st : HybridState)
    (now : ℚ) (oracles : ℕ → ℕ → FmpAttempt (List FmpRawQuote))
    (yahooBatch : List String → List (String × Quote)) (maxFmpCalls : ℕ) :
    List (String × Quote) × HybridState :=
  if symbols = [] then ([], st)
  else
    let step1 := symbols.foldl (fun (acc : List (String × Quote) × List String) s =>
      match get_hybrid_cached_quote st now s with
      | some cached => (upsert acc.1 s cached, acc.2)
      | none => (acc.1, acc.2 ++ [s])) ([], [])
    let results0 := step1.1
    let remaining := step1.2
    if remaining = [] then (results0, st)
    else
      let chunks := chunkList maxFmpCalls remaining
      let acc0 : BatchAcc := { results := results0, st := st, fmpServed := [] }
      let accF :=
        if st.fmp.enabled then
          (chunks.foldl (fun (p : BatchAcc × ℕ) _chunk =>
            (processFmpChunk now (oracles p.2) p.1, p.2 + 1)) (acc0, 0)).1
        else acc0
      let yahooSymbols := remaining.filter
        (fun s => !(accF.fmpServed.contains (upper s)))
      let yahooPairs := if yahooSymbols = [] then [] else yahooBatch yahooSymbols
      let final := yahooPairs.foldl (fun (acc : BatchAcc) p =>
        let tagged := { p.2 with source := some "yahoo" }
        { acc with results := upsert acc.results p.1 tagged,
                   st := set_hybrid_cached_quote acc.st now p.1 tagged }) accF
      (final.results, final.st)

/-- One daily bar of a historical series (`open` is a Lean keyword, hence
`openPrice`).  Dates are totally ordered day indices (the Python
`'YYYY-MM-DD'` strings compare lexicographically, which is the same
order). -/
structure HistBar where
  date : ℕ
  openPrice : ℚ
  high : ℚ
  low : ℚ
  close : ℚ
  volume : ℕ
  deriving DecidableEq

/-- The `period_map` of `get_hybrid_stock_history` (lines 463-467), default
365. -/
def periodMapDays (period : String) : ℕ :=
  if period = "1d" then 1
  else if period = "5d" then 5
  else if period = "1mo" then 30
  else if period = "3mo" then 90
  else if period = "6mo" then 180
  else if period = "1y" then 365
  else if period = "2y" then 730
  else if period = "5y" then 1825
  else 365

/-- The normalization step of the FMP history path (lines 479-489): FMP is
assumed to return newest-first data, so the code takes the first `days`
entries and reverses them.  No sorting or de-duplication is performed. -/
def fmpHistoryNormalize (days : ℕ) (historical : List HistBar) : List HistBar :=
  let truncated := if days < historical.length then historical.take days else historical
  truncated.reverse

/-- The historical-series record returned by `get_hybrid_stock_history`. -/
structure HistoryResult where
  symbol : String
  bars : List HistBar
  source : String
  deriving DecidableEq

/-- `get_hybrid_stock_history` of src/app/services/fmp_hybrid.py (lines
455-533): when FMP is enabled and returns a non-empty `historical` list,
truncate-and-reverse it and return it tagged `source='fmp'` (provided the
extracted prices/dates are non-empty); otherwise pass the Yahoo series
through unchanged, tagged `source='yahoo'`. -/
def get_hybrid_stock_history (symbol : String) (period : String)
    (fmpEnabled : Bool) (fmpHistorical : Option (List HistBar))
    (yahooHistorical : Option (List HistBar)) : Option HistoryResult :=
  let days := periodMapDays period
  let fromFmp : Option HistoryResult :=
    if fmpEnabled then
      match fmpHistorical with
      | some hist =>
        if hist = [] then none
        else
          let normalized := fmpHistoryNormalize days hist
          if normalized = [] then none
          else some { symbol := upper symbol, bars := normalized, source := "fmp" }
      | none => none
    else none
  match fromFmp with
  | some r => some r
  | none =>
    match yahooHistorical with
    | some bars => some { symbol := upper symbol, bars := bars, source := "yahoo" }
    | none => none

/-- `FMP_REQUEST_DELAY` (line 88), at its default `0.5` seconds. -/
def FMP_REQUEST_DELAY : ℚ := 1/2

/-- `RATE_LIMIT_DELAY` of src/app/services/yahoo_direct.py (line 13). -/
def RATE_LIMIT_DELAY : ℚ := 20

/-- `_fmp_rate_limit` of src/app/services/fmp_hybrid.py (lines 175-183):
sleep the remaining part of the minimum interval, then stamp
`_last_fmp_request` with the current time.  Returns the time at which the
gate exits, which is both the moment the request goes out and the new
`_last_fmp_request`. -/
def fmp_rate_limit (lastRequest now : ℚ) : ℚ :=
  let timeSinceLast := now - lastRequest
  if timeSinceLast < FMP_REQUEST_DELAY then now + (FMP_REQUEST_DELAY - timeSinceLast)
  else now

/-- `_wait_for_rate_limit` of src/app/services/yahoo_direct.py (lines
85-94): the remaining wait `(RATE_LIMIT_DELAY - elapsed)` is MULTIPLIED by a
jitter drawn from `uniform(0.5, 1.5)` before sleeping, then `_last_request`
is stamped.  Returns the gate-exit time (= request time = new
`_last_request`). -/
def wait_for_rate_limit (lastRequest now jitter : ℚ) : ℚ :=
  let elapsed := now - lastRequest
  if elapsed < RATE_LIMIT_DELAY then now + (RATE_LIMIT_DELAY - elapsed) * jitter
  else now

/-- A transport oracle whose every attempt answers HTTP 403 (subscription
restriction on every request). -/
def fmpForbiddenOracle : ℕ → FmpAttempt (List FmpRawQuote) :=
  fun _ => .status 403 none

/-- The provider-health state after one `_make_fmp_request` invocation whose
attempt sees a 403. -/
def fmpStep403 (st : FmpState) : FmpState :=
  (make_fmp_request st fmpForbiddenOracle).2.1

/-- Concrete in-range random draws for `create_mock_quote` examples. -/
def mockRandEx : MockRand :=
  { priceJitter := 1/100, changeJitter := 1/100, volume := 5000000,
    week52HighJitter := 6/5, week52LowJitter := 7/10 }

/-- Concrete Yahoo quote record as built by `get_yahoo_quote` (whose dict
carries no `source` key). -/
def yahooQuoteEx : Quote :=
  { symbol := "AAPL", companyName := some "Apple Inc.", price := 250,
    change := 1, changePercent := 2/5, volume := 1000, week52High := 260,
    week52Low := 160, source := none }

/-- Concrete FMP raw quote item. -/
def fmpRawQuoteEx : FmpRawQuote :=
  { symbol := some "AAPL", name := some "Apple Inc.", price := 250,
    change := 1, changesPercentage := 2/5, volume := 1000, yearHigh := 260,
    yearLow := 160 }

/-- Call environment in which FMP answers 404 and Yahoo has a record. -/
def env404 : QuoteCallEnv :=
  { fmpOracle := fun _ => .status 404 none, yahooResult := some yahooQuoteEx,
    companyName := none }

/-- Call environment in which FMP answers 200 with one raw quote. -/
def envFmpOk : QuoteCallEnv :=
  { fmpOracle := fun _ => .status 200 (some ⟨false, [fmpRawQuoteEx]⟩),
    yahooResult := some yahooQuoteEx, companyName := some "Apple Inc." }

/-- An FMP raw quote whose price is 0 (absent `price` key defaults to 0). -/
def zeroPriceRaw : FmpRawQuote :=
  { symbol := some "ZZZ", name := none, price := 0, change := 0,
    changesPercentage := 0, volume := 0, yearHigh := 0, yearLow := 0 }

/-- Batch oracles answering every chunk request with the zero-price item. -/
def zeroPriceOracles : ℕ → ℕ → FmpAttempt (List FmpRawQuote) :=
  fun _ _ => .status 200 (some ⟨false, [zeroPriceRaw]⟩)

/-- A Yahoo batch endpoint that returns nothing. -/
def emptyYahooBatch : List String → List (String × Quote) := fun _ => []

/-- The standardized record the batch path builds from `zeroPriceRaw`. -/
def zeroPriceQuoteEx : Quote :=
  { symbol := "ZZZ", companyName := none, price := 0, change := 0,
    changePercent := 0, volume := 0, week52High := 0, week52Low := 0,
    source := some "fmp" }

/-- Two bars in ascending (oldest-first) order — NOT FMP's native
newest-first order. -/
def ascBarsEx : List HistBar :=
  [{ date := 1, openPrice := 1, high := 1, low := 1, close := 1, volume := 1 },
   { date := 2, openPrice := 1, high := 1, low := 1, close := 1, volume := 1 }]

/-- Two bars in descending (newest-first) order — FMP's native order. -/
def descBarsEx : List HistBar :=
  [{ date := 2, openPrice := 1, high := 1, low := 1, close := 1, volume := 1 },
   { date := 1, openPrice := 1, high := 1, low := 1, close := 1, volume := 1 }]

/-- A quote observation sitting exactly at its 52-week high. -/
def quoteObsEx : Quote :=
  { symbol := "AAPL", companyName := none, price := 100, change := 0,
    changePercent := 0, volume := 0, week52High := 100, week52Low := 50,
    source := some "fmp" }

/-- `yahooQuoteEx` after the resolver tags it `source='yahoo'`. -/
def yahooTaggedEx : Quote := { yahooQuoteEx with source := some "yahoo" }

/-- The standardized record the single-quote FMP path builds from
`fmpRawQuoteEx`. -/
def fmpRecordEx : Quote := fmpQuoteToRecord "AAPL" (some "Apple Inc.") fmpRawQuoteEx

/-- C10: the dedup-log `append` of src/app/utils/logs.py is idempotent: when
the item is already in the stored array it returns `False` and leaves the
file contents unchanged; when absent it returns `True` and the stored array
becomes the previous array with the item appended; appending the same item
twice changes the file only once (the second append returns `False` and
keeps the file as after the first). -/
theorem logs_append_idempotent (file : Option (List String)) (item : String) :
    (item ∈ Logs.read file → Logs.append file item = (file, false)) ∧
    (item ∉ Logs.read file →
      Logs.append file item = (some (Logs.read file ++ [item]), true)) ∧
    Logs.append (Logs.append file item).1 item = ((Logs.append file item).1, false) := by
  refine ⟨?_, ?_, ?_⟩
  · intro h
    match file with
    | none => simp [Logs.read] at h
    | some l =>
      simp only [Logs.read, Option.getD_some] at h
      simp [Logs.append, Logs.read, Logs.ensure, h]
  · intro h
    simp [Logs.append, Logs.read, Logs.ensure] at h ⊢
    simp [h]
  · by_cases h : item ∈ Logs.read file
    · match file with
      | none => simp [Logs.read] at h
      | some l =>
        simp only [Logs.read, Option.getD_some] at h
        simp [Logs.append, Logs.read, Logs.ensure, h]
    · have h2 : Logs.append file item = (some (Logs.read file ++ [item]), true) := by
        unfold Logs.append
        simp [h]
      rw [h2]
      simp [Logs.append, Logs.read, Logs.ensure]

/-- Evaluation of `logs_append_idempotent` at concrete inputs. -/
theorem logs_append_idempotent_witness :
    Logs.append (some ["a"]) "a" = (some ["a"], false) ∧
    Logs.append (some ["a"]) "b" = (some (["a"] ++ ["b"]), true) :=
  ⟨(logs_append_idempotent (some ["a"]) "a").1 (by decide),
   (logs_append_idempotent (some ["a"]) "b").2.1 (by decide)⟩

theorem check_52_notifies_fresh (thresholdPct : ℚ) (log : List LogKey) (q : Quote)
    (hp : q.price ≠ 0) (hh : q.week52High ≠ 0)
    (hq : (q.price - q.week52High) / q.week52High * 100 ≥ -thresholdPct)
    (hnew : LogKey.high q.symbol q.week52High (cents q.price) ∉ log) :
    check_52_week_high_stock thresholdPct log q
      = (log ++ [LogKey.high q.symbol q.week52High (cents q.price)], 1) := by
  unfold check_52_week_high_stock
  simp [hp, hh, hq, hnew]

theorem check_52_silent_seen (thresholdPct : ℚ) (log : List LogKey) (q : Quote)
    (hp : q.price ≠ 0) (hh : q.week52High ≠ 0)
    (hq : (q.price - q.week52High) / q.week52High * 100 ≥ -thresholdPct)
    (hseen : LogKey.high q.symbol q.week52High (cents q.price) ∈ log) :
    check_52_week_high_stock thresholdPct log q = (log, 0) := by
  unfold check_52_week_high_stock
  simp [hp, hh, hq, hseen]

theorem runs_52_silent (thresholdPct : ℚ) (q : Quote) (n : ℕ) (log : List LogKey)
    (hp : q.price ≠ 0) (hh : q.week52High ≠ 0)
    (hq : (q.price - q.week52High) / q.week52High * 100 ≥ -thresholdPct)
    (hseen : LogKey.high q.symbol q.week52High (cents q.price) ∈ log) :
    runs_52_week_high thresholdPct q n log = (log, 0) := by
  induction n with
  | zero => rfl
  | succ n ih =>
    simp [runs_52_week_high, check_52_silent_seen thresholdPct log q hp hh hq hseen, ih]

/-- C2: over any number of successive evaluator runs against the identical
52-week-high observation (same symbol, same 52-week high, same price
rounded to cents), exactly one notification goes out: the first run appends
the dedup key and notifies, every later run reloads the log, finds the key
and stays silent. -/
theorem dedup_52_week_high_exactly_once (thresholdPct : ℚ) (q : Quote)
    (log : List LogKey) (n : ℕ)
    (hp : q.price ≠ 0) (hh : q.week52High ≠ 0)
    (hq : (q.price - q.week52High) / q.week52High * 100 ≥ -thresholdPct)
    (hnew : LogKey.high q.symbol q.week52High (cents q.price) ∉ log) :
    (check_52_week_high_stock thresholdPct log q).2 = 1 ∧
    (runs_52_week_high thresholdPct q (n + 1) log).2 = 1 := by
  have hfirst := check_52_notifies_fresh thresholdPct log q hp hh hq hnew
  refine ⟨by rw [hfirst], ?_⟩
  have hmem : LogKey.high q.symbol q.week52High (cents q.price)
      ∈ log ++ [LogKey.high q.symbol q.week52High (cents q.price)] := by simp
  have hrest := runs_52_silent thresholdPct q n
    (log ++ [LogKey.high q.symbol q.week52High (cents q.price)]) hp hh hq hmem
  simp [runs_52_week_high, hfirst, hrest]

/-- Evaluation of `dedup_52_week_high_exactly_once`: three runs over the
same at-the-high observation notify exactly once. -/
theorem dedup_52_week_high_exactly_once_witness :
    (runs_52_week_high (1/2) quoteObsEx (2 + 1) []).2 = 1 :=
  (dedup_52_week_high_exactly_once (1/2) quoteObsEx [] 2
    (by norm_num [quoteObsEx]) (by norm_num [quoteObsEx])
    (by norm_num [quoteObsEx]) (by simp)).2

/-- C7: the FMP gate does wait out the full minimum interval, but the Yahoo
gate multiplies the remaining wait by a jitter drawn from `uniform(0.5,
1.5)`: with the previous request 0 seconds ago and a jitter draw of `0.5`
the next request goes out only 10 seconds after the previous one — less
than the configured 20-second minimum interval.  The code contradicts the
stated purpose of its own rate limiting (a conservative minimum spacing to
avoid 429s); the jitter was meant to desynchronize callers, not to shorten
the wait below the minimum. -/
theorem rate_limit_gate_spacing :
    (∀ lastRequest now : ℚ,
      FMP_REQUEST_DELAY ≤ fmp_rate_limit lastRequest now - lastRequest) ∧
    wait_for_rate_limit 100 100 (1/2) - 100 = 10 ∧
    (10 : ℚ) < RATE_LIMIT_DELAY := by
  refine ⟨?_, ?_, ?_⟩
  · intro l n
    simp only [fmp_rate_limit]
    split
    · linarith
    · rename_i h
      rw [not_lt] at h
      linarith
  · norm_num [wait_for_rate_limit, RATE_LIMIT_DELAY]
  · norm_num [RATE_LIMIT_DELAY]

/-- C8 counterexample: an HTTP 204 response — a 2xx status — makes the
transport return `None` and leaves the consecutive-forbidden counter at its
old value 5 instead of resetting it to 0 and returning the body. -/
theorem fmp_204_not_reset :
    make_fmp_request (⟨true, 5⟩ : FmpState)
        (fun _ => FmpAttempt.status 204 (some ⟨false, (0 : ℕ)⟩))
      = (none, ⟨true, 5⟩, 1) ∧ (5 : ℕ) ≠ 0 := by
  exact ⟨rfl, by decide⟩

/-- C8 (amended): only an HTTP 200 response whose body parses and is not an
FMP error-message object resets the consecutive-forbidden counter to 0 and
returns the parsed body; any other 2xx status returns `None` with the state
unchanged. -/
theorem fmp_2xx_behaviour {α : Type} :
    (∀ (st : FmpState) (oracle : ℕ → FmpAttempt α) (payload : α),
      st.enabled = true → oracle 0 = .status 200 (some ⟨false, payload⟩) →
      make_fmp_request st oracle = (some payload, ⟨true, 0⟩, 1)) ∧
    (∀ (st : FmpState) (oracle : ℕ → FmpAttempt α) (code : ℕ)
      (parsed : Option (FmpParsed α)),
      st.enabled = true → oracle 0 = .status code parsed →
      200 ≤ code → code < 300 → code ≠ 200 →
      make_fmp_request st oracle = (none, st, 1)) := by
  constructor
  · intro st oracle payload hen h
    obtain ⟨e, c⟩ := st
    simp only at hen
    subst hen
    simp [make_fmp_request, fmpGo, h]
  · intro st oracle code parsed hen h hlo hhi hne
    have h403 : code ≠ 403 := by omega
    have h429 : code ≠ 429 := by omega
    have h404 : code ≠ 404 := by omega
    simp [make_fmp_request, fmpGo, h, hen, h403, h429, h404, hne]

/-- Evaluation of `fmp_2xx_behaviour` at a concrete 200 response. -/
theorem fmp_2xx_behaviour_witness :
    make_fmp_request (⟨true, 7⟩ : FmpState)
        (fun _ => FmpAttempt.status 200 (some ⟨false, (42 : ℕ)⟩))
      = (some 42, ⟨true, 0⟩, 1) :=
  fmp_2xx_behaviour.1 ⟨true, 7⟩ _ 42 rfl rfl

theorem make_fmp_request_disabled {α : Type} (st : FmpState)
    (oracle : ℕ → FmpAttempt α) (h : st.enabled = false) :
    make_fmp_request st oracle = (none, st, 0) := by
  simp [make_fmp_request, h]

theorem fmpStep403_disabled (st : FmpState) (h : st.enabled = false) :
    fmpStep403 st = st := by
  simp [fmpStep403, make_fmp_request_disabled st fmpForbiddenOracle h]

theorem fmpStep403_enabled (st : FmpState) (h : st.enabled = true) :
    fmpStep403 st = fmpHandle403 st := by
  simp [fmpStep403, make_fmp_request, h, fmpForbiddenOracle, fmpGo]

theorem fmpStep403_iterate_disabled (n : ℕ) (st : FmpState)
    (h : st.enabled = false) : fmpStep403^[n] st = st := by
  induction n with
  | zero => rfl
  | succ n ih => rw [Function.iterate_succ_apply, fmpStep403_disabled st h, ih]

theorem fmpStep403_disables (n : ℕ) (st : FmpState) (h1 : 1 ≤ n)
    (h2 : FMP_FORBIDDEN_THRESHOLD ≤ st.consecutiveForbidden + n) :
    (fmpStep403^[n] st).enabled = false := by
  induction n generalizing st with
  | zero => omega
  | succ n ih =>
    rw [Function.iterate_succ_apply]
    by_cases he : st.enabled = true
    · rw [fmpStep403_enabled st he]
      by_cases hd : FMP_FORBIDDEN_THRESHOLD ≤ st.consecutiveForbidden + 1
      · have hdis : (fmpHandle403 st).enabled = false := by
          simp [fmpHandle403, hd]
        rw [fmpStep403_iterate_disabled n _ hdis]
        exact hdis
      · have hen2 : (fmpHandle403 st).enabled = true := by
          simp [fmpHandle403, hd, he]
        have hc : (fmpHandle403 st).consecutiveForbidden
            = st.consecutiveForbidden + 1 := rfl
        have hn : 1 ≤ n := by
          rcases Nat.eq_zero_or_pos n with h0 | h0
          · subst h0
            omega
          · exact h0
        have := ih (fmpHandle403 st) hn (by rw [hc]; omega)
        exact this
    · have hf : st.enabled = false := by
        cases hb : st.enabled
        · rfl
        · exact absurd hb he
      rw [fmpStep403_disabled st hf, fmpStep403_iterate_disabled n st hf]
      exact hf

/-- C4: the circuit breaker of the FMP transport: from any state, after the
threshold number (10) of transport invocations each answered 403 with no
intervening success, the provider-enabled flag is false; a disabled provider
is absorbing — every later transport call returns `None` with the state
unchanged and zero outbound HTTP requests — and every later resolver call
with a cold cache is answered by the secondary provider (tagged
`source='yahoo'`) or by nothing, never by FMP. -/
theorem fmp_circuit_breaker :
    (∀ st : FmpState, (fmpStep403^[FMP_FORBIDDEN_THRESHOLD] st).enabled = false) ∧
    (∀ (st : FmpState) (oracle : ℕ → FmpAttempt (List FmpRawQuote)),
      st.enabled = false → make_fmp_request st oracle = (none, st, 0)) ∧
    (∀ (symbol : String) (st : HybridState) (now : ℚ) (env : QuoteCallEnv),
      st.fmp.enabled = false → get_hybrid_cached_quote st now symbol = none →
      (get_hybrid_stock_quote symbol st now env).1
        = env.yahooResult.map (fun y => { y with source := some "yahoo" })) := by
  refine ⟨?_, ?_, ?_⟩
  · intro st
    exact fmpStep403_disables FMP_FORBIDDEN_THRESHOLD st (by decide)
      (Nat.le_add_left FMP_FORBIDDEN_THRESHOLD st.consecutiveForbidden)
  · intro st oracle h
    exact make_fmp_request_disabled st oracle h
  · intro symbol st now env he hmiss
    simp only [get_hybrid_stock_quote, hmiss, he]
    cases env.yahooResult with
    | none => simp [yahooQuoteFallback]
    | some y => simp [yahooQuoteFallback]

/-- Evaluation of `fmp_circuit_breaker` at concrete inputs: a disabled
provider answers `None` with no HTTP request, and the resolver serves the
Yahoo record tagged `source='yahoo'`. -/
theorem fmp_circuit_breaker_witness :
    make_fmp_request (⟨false, 3⟩ : FmpState)
        (fun _ => FmpAttempt.status 200 (some ⟨false, ([] : List FmpRawQuote)⟩))
      = (none, ⟨false, 3⟩, 0) ∧
    (get_hybrid_stock_quote "AAPL" (emptyHybridState false) 1000 env404).1
      = some { yahooQuoteEx with source := some "yahoo" } :=
  ⟨fmp_circuit_breaker.2.1 ⟨false, 3⟩ _ rfl,
   fmp_circuit_breaker.2.2 "AAPL" (emptyHybridState false) 1000 env404 rfl rfl⟩

/-- C9: `get_stock_quote` is total on every hybrid outcome — exception,
`None`, invalid price or valid record — and never returns "no data": it
hands the caller either the provider record (only when its price is
positive) or the deterministic synthetic record from `create_mock_quote`. -/
theorem get_stock_quote_total (symbol : String) (hybrid : HybridOutcome)
    (r : MockRand) :
    (∃ q, hybrid = .returned (some q) ∧ 0 < q.price ∧
      get_stock_quote symbol hybrid r = q) ∨
    get_stock_quote symbol hybrid r = create_mock_quote symbol r := by
  match hybrid with
  | .raised => exact Or.inr rfl
  | .returned none => exact Or.inr rfl
  | .returned (some q) =>
    by_cases h : 0 < q.price
    · exact Or.inl ⟨q, rfl, h, by simp [get_stock_quote, h]⟩
    · exact Or.inr (by simp [get_stock_quote, h])

theorem mockCompanyEntry_price_pos (symbol : String) :
    0 < (mockCompanyEntry symbol).2 := by
  simp only [mockCompanyEntry]
  split_ifs <;> norm_num

theorem create_mock_quote_price_pos (symbol : String) (r : MockRand)
    (hr : r.InRange) : 0 < (create_mock_quote symbol r).price := by
  obtain ⟨h1, h2, _⟩ := hr
  have hb := mockCompanyEntry_price_pos symbol
  have hj : (0 : ℚ) < 1 + r.priceJitter := by linarith
  simpa [create_mock_quote] using mul_pos hb hj

/-- C5 (amended): the single-quote resolver path treats a provider quote
with price ≤ 0 as absent data and falls back (ultimately to the synthetic
record), so every record it returns has price > 0; the batch path
(`get_multiple_hybrid_quotes`) performs no price validity check, so there a
provider quote with price ≤ 0 is cached and returned to the caller (see the
counterexample). -/
theorem get_stock_quote_price_pos (symbol : String) (hybrid : HybridOutcome)
    (r : MockRand) (hr : r.InRange) :
    0 < (get_stock_quote symbol hybrid r).price := by
  match hybrid with
  | .raised => exact create_mock_quote_price_pos symbol r hr
  | .returned none => exact create_mock_quote_price_pos symbol r hr
  | .returned (some q) =>
    by_cases h : 0 < q.price
    · simp [get_stock_quote, h]
    · simpa [get_stock_quote, h] using create_mock_quote_price_pos symbol r hr

/-- Evaluation of `get_stock_quote_price_pos` at a concrete failed hybrid
call. -/
theorem get_stock_quote_price_pos_witness :
    0 < (get_stock_quote "AAPL" (.returned none) mockRandEx).price :=
  get_stock_quote_price_pos "AAPL" (.returned none) mockRandEx
    (by norm_num [MockRand.InRange, mockRandEx])

/-- C5 counterexample: a batch resolver run in which FMP answers 200 with a
quote whose price is 0 returns that zero-price record to the caller, tagged
`source='fmp'`, instead of treating it as absent data. -/
theorem batch_returns_price_zero :
    (get_multiple_hybrid_quotes ["ZZZ"] (emptyHybridState true) 1000
        zeroPriceOracles emptyYahooBatch 5).1 = [("ZZZ", zeroPriceQuoteEx)] ∧
    ¬ 0 < zeroPriceQuoteEx.price ∧ zeroPriceQuoteEx.source = some "fmp" := by
  exact ⟨rfl, by norm_num [zeroPriceQuoteEx], rfl⟩

/-- C1: the synthetic fallback record is NOT tagged: `create_mock_quote`
builds a dict with no `source` key, so when both real providers fail the
resolver returns a record with price > 0 that carries no source tag at all
— while every real-data path tags its records (`'fmp'` / `'yahoo'`) and the
spec requires the synthetic record to be tagged as such. -/
theorem mock_quote_untagged :
    0 < (get_stock_quote "AAPL" (.returned none) mockRandEx).price ∧
    (get_stock_quote "AAPL" (.returned none) mockRandEx).source = none ∧
    get_stock_quote "AAPL" (.returned none) mockRandEx
      = create_mock_quote "AAPL" mockRandEx := by
  refine ⟨?_, rfl, rfl⟩
  exact create_mock_quote_price_pos "AAPL" mockRandEx
    (by norm_num [MockRand.InRange, mockRandEx])

theorem fmpHistoryNormalize_ascending (days : ℕ) (hist : List HistBar)
    (hdesc : List.Chain' (fun a b => b.date < a.date) hist) :
    List.Chain' (fun a b : HistBar => a.date < b.date)
      (fmpHistoryNormalize days hist) := by
  simp only [fmpHistoryNormalize]
  rw [List.chain'_reverse]
  split
  · exact hdesc.take days
  · exact hdesc

/-- C6 (amended): when the primary provider's series arrives with strictly
descending dates (its documented newest-first native order), the resolver's
truncate-and-reverse returns bars with strictly ascending, duplicate-free
dates.  The code only reverses — it never sorts — so ascending output is
guaranteed only under that assumption on the upstream order, and the
secondary provider's series is passed through in its native order (see the
counterexample). -/
theorem history_ascending_of_descending (symbol period : String)
    (hist : List HistBar) (yahooHistorical : Option (List HistBar))
    (r : HistoryResult)
    (hdesc : List.Chain' (fun a b => b.date < a.date) hist)
    (hr : get_hybrid_stock_history symbol period true (some hist) yahooHistorical
      = some r)
    (hsrc : r.source = "fmp") :
    List.Pairwise (fun a b : ℕ => a < b) (r.bars.map (fun b => b.date)) := by
  have hbars : r.bars = fmpHistoryNormalize (periodMapDays period) hist := by
    by_cases h1 : hist = []
    · cases yahooHistorical with
      | none => simp [get_hybrid_stock_history, h1] at hr
      | some bars =>
        simp [get_hybrid_stock_history, h1] at hr
        rw [← hr] at hsrc
        simp at hsrc
    · by_cases h2 : fmpHistoryNormalize (periodMapDays period) hist = []
      · cases yahooHistorical with
        | none => simp [get_hybrid_stock_history, h1, h2] at hr
        | some bars =>
          simp [get_hybrid_stock_history, h1, h2] at hr
          rw [← hr] at hsrc
          simp at hsrc
      · simp [get_hybrid_stock_history, h1, h2] at hr
        rw [← hr]
  rw [hbars]
  have hchain := fmpHistoryNormalize_ascending (periodMapDays period) hist hdesc
  have hmap : List.Chain' (fun a b : ℕ => a < b)
      ((fmpHistoryNormalize (periodMapDays period) hist).map (fun b => b.date)) :=
    (List.chain'_map (fun b : HistBar => b.date)).mpr hchain
  exact List.chain'_iff_pairwise.mp hmap

/-- Evaluation of `history_ascending_of_descending` on a concrete
newest-first series. -/
theorem history_ascending_of_descending_witness :
    List.Pairwise (fun a b : ℕ => a < b)
      ((⟨"AAPL", ascBarsEx, "fmp"⟩ : HistoryResult).bars.map (fun b => b.date)) :=
  history_ascending_of_descending "AAPL" "1y" descBarsEx none _
    (by simp [descBarsEx, List.chain'_cons]) rfl rfl

/-- C6 counterexample: when the primary provider returns its data
oldest-first instead of newest-first, the resolver still reverses it, so the
returned dates `[2, 1]` are NOT ascending: the ordering guarantee does not
hold "regardless of the upstream provider's native order". -/
theorem history_reverse_not_sorting :
    (get_hybrid_stock_history "AAPL" "1y" true (some ascBarsEx) none).map
      (fun r => r.bars.map (fun b => b.date)) = some [2, 1] ∧
    ¬ List.Chain' (fun a b : ℕ => a < b) [2, 1] := by
  exact ⟨rfl, by simp [List.chain'_cons]⟩

theorem cached_after_set (st : HybridState) (t now : ℚ) (symbol : String)
    (q : Quote) :
    get_hybrid_cached_quote (set_hybrid_cached_quote st t symbol q) now symbol
      = if t ≠ 0 ∧ now - t < HYBRID_QUOTE_TTL then some q else none := by
  simp [get_hybrid_cached_quote, set_hybrid_cached_quote]

theorem yahooFallback_cached (symbol : String) (st2 : HybridState)
    (now1 now2 : ℚ) (yres : Option Quote) (calls : ℕ) (q : Quote)
    (hne : now1 ≠ 0) (hTTL : now2 - now1 < HYBRID_QUOTE_TTL)
    (hq : (yahooQuoteFallback symbol st2 now1 yres calls).1 = some q) :
    get_hybrid_cached_quote ((yahooQuoteFallback symbol st2 now1 yres calls).2.1)
      now2 symbol = some q := by
  cases yres with
  | none => simp [yahooQuoteFallback] at hq
  | some y =>
    simp only [yahooQuoteFallback, Option.some.injEq] at hq
    simp only [yahooQuoteFallback]
    rw [cached_after_set, if_pos ⟨hne, hTTL⟩, hq]

/-- C3 (amended): when a resolver call that was not itself served from the
cache returns a record, it stores that record in the quote cache stamped
with the call time; any second call for the same symbol within the TTL
window is answered from the cache and issues zero upstream HTTP requests,
returning the identical record and leaving the state untouched (the lookup
has no side effects).  The total number of upstream requests of the pair is
therefore that of the first call alone — which can itself exceed one when
the primary provider retries or falls back (see the counterexample). -/
theorem quote_cache_idempotent (symbol : String) (st : HybridState)
    (now1 now2 : ℚ) (env1 env2 : QuoteCallEnv) (q : Quote)
    (h0 : 0 < now1) (hTTL : now2 - now1 < HYBRID_QUOTE_TTL)
    (hmiss : get_hybrid_cached_quote st now1 symbol = none)
    (hq : (get_hybrid_stock_quote symbol st now1 env1).1 = some q) :
    get_hybrid_stock_quote symbol
        ((get_hybrid_stock_quote symbol st now1 env1).2.1) now2 env2
      = (some q, (get_hybrid_stock_quote symbol st now1 env1).2.1, 0) := by
  have hne : now1 ≠ 0 := ne_of_gt h0
  have hcache : get_hybrid_cached_quote
      ((get_hybrid_stock_quote symbol st now1 env1).2.1) now2 symbol = some q := by
    simp only [get_hybrid_stock_quote, hmiss] at hq ⊢
    cases he : st.fmp.enabled with
    | false =>
      simp only [he, Bool.false_eq_true, if_false] at hq ⊢
      exact yahooFallback_cached symbol st now1 now2 env1.yahooResult 0 q hne hTTL hq
    | true =>
      simp only [he, if_true] at hq ⊢
      rcases hF : make_fmp_request st.fmp env1.fmpOracle with ⟨res, fmp1, calls⟩
      rw [hF] at hq
      rcases res with - | (- | ⟨q0, rest⟩)
      · dsimp only at hq ⊢
        exact yahooFallback_cached symbol { st with fmp := fmp1 } now1 now2
          env1.yahooResult calls q hne hTTL hq
      · dsimp only at hq ⊢
        exact yahooFallback_cached symbol { st with fmp := fmp1 } now1 now2
          env1.yahooResult calls q hne hTTL hq
      · dsimp only at hq ⊢
        rw [Option.some.injEq] at hq
        rw [cached_after_set, if_pos ⟨hne, hTTL⟩, hq]
  generalize hS : (get_hybrid_stock_quote symbol st now1 env1).2.1 = S at hcache ⊢
  simp only [get_hybrid_stock_quote, hcache]

/-- Evaluation of `quote_cache_idempotent`: a second call 30 seconds after a
first FMP-served call is answered from the cache with zero requests. -/
theorem quote_cache_idempotent_witness :
    get_hybrid_stock_quote "AAPL"
        ((get_hybrid_stock_quote "AAPL" (emptyHybridState true) 1000 envFmpOk).2.1)
        1030 envFmpOk
      = (some fmpRecordEx,
         (get_hybrid_stock_quote "AAPL" (emptyHybridState true) 1000 envFmpOk).2.1,
         0) :=
  quote_cache_idempotent "AAPL" (emptyHybridState true) 1000 1030 envFmpOk envFmpOk
    fmpRecordEx (by norm_num) (by norm_num [HYBRID_QUOTE_TTL]) rfl rfl

/-- C3 counterexample: with a cold cache, an FMP 404 and a Yahoo record, the
FIRST call already issues two upstream HTTP requests (one FMP, one Yahoo
fallback), so the pair of calls issues two requests in total — the claim's
"at most one upstream HTTP request in total" fails even though the second
call is served entirely from the cache with zero requests. -/
theorem two_calls_two_requests :
    (get_hybrid_stock_quote "AAPL" (emptyHybridState true) 1000 env404).2.2 = 2 ∧
    get_hybrid_stock_quote "AAPL"
        ((get_hybrid_stock_quote "AAPL" (emptyHybridState true) 1000 env404).2.1)
        1030 env404
      = (some yahooTaggedEx,
         (get_hybrid_stock_quote "AAPL" (emptyHybridState true) 1000 env404).2.1,
         0) ∧
    ¬ ((2 : ℕ) + 0 ≤ 1) := by
  refine ⟨rfl, ?_, by norm_num⟩
  have h2 : (get_hybrid_stock_quote "AAPL" (emptyHybridState true) 1000 env404).2.1
      = set_hybrid_cached_quote (emptyHybridState true) 1000 "AAPL" yahooTaggedEx := rfl
  have h1 : get_hybrid_cached_quote
      ((get_hybrid_stock_quote "AAPL" (emptyHybridState true) 1000 env404).2.1)
      1030 "AAPL" = some yahooTaggedEx := by
    rw [h2, cached_after_set]
    norm_num [HYBRID_QUOTE_TTL]
  generalize hS : (get_hybrid_stock_quote "AAPL" (emptyHybridState true) 1000
    env404).2.1 = S at h1 ⊢
  simp only [get_hybrid_stock_quote, h1]

end DS2
